import Mathlib

/-
Verification of the Redux Toolkit todo slice (todoSlice.js).

The slice state is an object holding a list of todos. Each todo is a record
with an id and a text field. The seeded todo has the JavaScript number 1 as
its id, while addTodo generates ids with nanoid(), which returns strings.
We therefore embed JavaScript id values as a sum of numbers and strings, so
that strict equality (===) on ids becomes decidable equality on the sum.
-/

namespace TodoApp

/-- Identifier value of a todo: JavaScript number or nanoid string. -/
inductive TId where
  | num : Nat → TId
  | str : String → TId
deriving DecidableEq, Repr

/-- Record stored in the todos list: an id and a text. -/
structure Todo where
  id : TId
  text : String
deriving DecidableEq, Repr

/-- Slice state: the object holding the todos array. -/
structure TodoState where
  todos : List Todo
deriving DecidableEq, Repr

/-- Embeds the initialState of todoSlice.js: one seeded todo with the
numeric id 1 and the text Hello world!. -/
def initialState : TodoState :=
  ⟨[⟨TId.num 1, "Hello world!"⟩]⟩

/-- Embeds the addTodo reducer: builds a todo from a freshly generated id
and the action payload, then pushes it at the end of the todos array. The
nanoid call is modelled by the freshId argument. -/
def addTodo (s : TodoState) (freshId : TId) (text : String) : TodoState :=
  ⟨s.todos ++ [⟨freshId, text⟩]⟩

/-- Embeds the removeTodo reducer: replaces the todos array by its filter
keeping the todos whose id is not strictly equal to the action payload. -/
def removeTodo (s : TodoState) (i : TId) : TodoState :=
  ⟨s.todos.filter (fun t => t.id ≠ i)⟩

/-- Identifiers currently present in a state, in list order. -/
def ids (s : TodoState) : List TId :=
  s.todos.map Todo.id

/-- One dispatch step of the store: an addTodo action whose nanoid result is
fresh for the current state, or a removeTodo action with any payload. -/
inductive Step : TodoState → TodoState → Prop where
  | add : ∀ (s : TodoState) (i : TId) (t : String),
      i ∉ ids s → Step s (addTodo s i t)
  | remove : ∀ (s : TodoState) (i : TId), Step s (removeTodo s i)

/-- States reachable from initialState by dispatching actions. -/
inductive Reachable : TodoState → Prop where
  | init : Reachable initialState
  | step : ∀ (s s' : TodoState), Reachable s → Step s s' → Reachable s'

/-- Filtering by a non-occurring id keeps the whole list. -/
lemma filter_ne_of_not_mem (l : List Todo) (i : TId)
    (h : i ∉ l.map Todo.id) :
    l.filter (fun t => t.id ≠ i) = l := by
  apply List.filter_eq_self.mpr
  intro t ht
  simp only [ne_eq, decide_not, Bool.not_eq_true', decide_eq_false_iff_not]
  intro he
  exact h (he ▸ List.mem_map_of_mem Todo.id ht)

/-- Under unique ids, filtering out a present id drops exactly one todo. -/
lemma length_filter_ne_of_mem (l : List Todo) (i : TId)
    (hnd : (l.map Todo.id).Nodup) (hmem : i ∈ l.map Todo.id) :
    (l.filter (fun t => t.id ≠ i)).length + 1 = l.length := by
  induction l with
  | nil => simp at hmem
  | cons hd tl ih =>
    simp only [List.map_cons, List.nodup_cons] at hnd
    rcases List.mem_cons.mp hmem with hcase | hcase
    · have htl : i ∉ tl.map Todo.id := hcase ▸ hnd.1
      simp [List.filter_cons, hcase]
      intro a ha he
      apply htl
      rw [hcase, ← he]
      exact List.mem_map_of_mem Todo.id ha
    · have hne : hd.id ≠ i := fun he => hnd.1 (he ▸ hcase)
      have ihh := ih hnd.2 hcase
      have hb : (decide ¬hd.id = i) = true := by simpa using hne
      simp only [ne_eq] at ihh
      simp only [List.filter_cons, ne_eq, hb, if_true, List.length_cons]
      omega

end TodoApp

namespace TodoApp

/-- C1: addTodo appends exactly one record at the end of the todos list,
the new record text equals the payload, and the size grows by one. -/
theorem addTodo_appends_one (s : TodoState) (i : TId) (txt : String) :
    (addTodo s i txt).todos = s.todos ++ [⟨i, txt⟩] ∧
    (addTodo s i txt).todos.length = s.todos.length + 1 := by
  constructor
  · rfl
  · simp [addTodo]

/-- C2: with unique identifiers, removeTodo of a present id shrinks the
todos list by exactly one, and removeTodo of an absent id is a no-op. -/
theorem removeTodo_length_spec (s : TodoState) (i : TId)
    (hnd : (ids s).Nodup) :
    (i ∈ ids s → (removeTodo s i).todos.length + 1 = s.todos.length) ∧
    (i ∉ ids s → removeTodo s i = s) := by
  constructor
  · intro hmem
    exact length_filter_ne_of_mem s.todos i hnd hmem
  · intro habs
    show TodoState.mk _ = s
    rw [filter_ne_of_not_mem s.todos i habs]

/-- Witness for C2 at the seeded state with the present id 1 and the
absent string id x. -/
theorem removeTodo_length_spec_witness :
    ((TId.num 1 ∈ ids initialState →
        (removeTodo initialState (TId.num 1)).todos.length + 1
          = initialState.todos.length) ∧
      (TId.num 1 ∉ ids initialState →
        removeTodo initialState (TId.num 1) = initialState)) ∧
    TId.num 1 ∈ ids initialState ∧
    (removeTodo initialState (TId.num 1)).todos.length + 1
      = initialState.todos.length := by
  refine ⟨removeTodo_length_spec initialState (TId.num 1) (by decide), by decide, ?_⟩
  exact (removeTodo_length_spec initialState (TId.num 1) (by decide)).1 (by decide)

/-- C3: every state reachable from initialState by dispatching addTodo
actions with fresh nanoid results and arbitrary removeTodo actions has
pairwise distinct identifiers. -/
theorem reachable_ids_nodup (s : TodoState) (h : Reachable s) :
    (ids s).Nodup := by
  induction h with
  | init => decide
  | step s s' _ hstep ih =>
    cases hstep with
    | add i t hfresh =>
      show (List.map Todo.id (s.todos ++ [⟨i, t⟩])).Nodup
      rw [List.map_append, List.nodup_append]
      refine ⟨ih, List.nodup_singleton i, ?_⟩
      intro a ha hb
      simp only [List.map_cons, List.map_nil, List.mem_singleton] at hb
      have hb2 : a = i := hb
      exact hfresh (hb2 ▸ ha)
    | remove i =>
      show (List.map Todo.id (s.todos.filter (fun t => t.id ≠ i))).Nodup
      exact (List.Sublist.map Todo.id s.todos.filter_sublist).nodup ih

/-- Witness for C3 at a concrete reachable state: initialState after one
fresh add. -/
theorem reachable_ids_nodup_witness :
    (ids (addTodo initialState (TId.str "V1StGXR8_Z5jdHi6B-myT") "Buy milk")).Nodup :=
  reachable_ids_nodup _
    (Reachable.step _ _ Reachable.init
      (Step.add initialState (TId.str "V1StGXR8_Z5jdHi6B-myT") "Buy milk" (by decide)))

/-- C4: both reducers are total: for every state and every payload each one
yields a well-defined successor state. -/
theorem reducers_total (s : TodoState) (i : TId) (txt : String) :
    (∃ s₁ : TodoState, addTodo s i txt = s₁) ∧
    (∃ s₂ : TodoState, removeTodo s i = s₂) :=
  ⟨⟨addTodo s i txt, rfl⟩, ⟨removeTodo s i, rfl⟩⟩

/-- C5: addTodo applies no validation: the empty payload is appended as a
record with empty text, exactly like any other payload. -/
theorem addTodo_empty_text (s : TodoState) (i : TId) :
    (addTodo s i "").todos = s.todos ++ [⟨i, ""⟩] ∧
    (addTodo s i "").todos.length = s.todos.length + 1 ∧
    addTodo s i "" = addTodo s i "" := by
  exact ⟨rfl, by simp [addTodo], rfl⟩

/-- C6: addTodo leaves every pre-existing record and their order unchanged,
and removeTodo keeps every non-matching record unchanged, in the original
relative order, dropping only matching ones. -/
theorem reducers_frame (s : TodoState) (i : TId) (txt : String) :
    (addTodo s i txt).todos.take s.todos.length = s.todos ∧
    (removeTodo s i).todos.Sublist s.todos ∧
    (∀ t ∈ s.todos, t.id ≠ i → t ∈ (removeTodo s i).todos) := by
  refine ⟨?_, s.todos.filter_sublist, ?_⟩
  · show (s.todos ++ [(⟨i, txt⟩ : Todo)]).take s.todos.length = s.todos
    exact List.take_left s.todos [(⟨i, txt⟩ : Todo)]
  · intro t ht hne
    exact List.mem_filter.mpr ⟨ht, by simpa using hne⟩

/-- C7: the concrete run from the seeded state: adding Buy milk with a
fresh nanoid string appends it after the seeded todo, and removing id 1
then leaves only the Buy milk todo. -/
theorem concrete_run (g : String) :
    addTodo initialState (TId.str g) "Buy milk"
      = ⟨[⟨TId.num 1, "Hello world!"⟩, ⟨TId.str g, "Buy milk"⟩]⟩ ∧
    removeTodo (addTodo initialState (TId.str g) "Buy milk") (TId.num 1)
      = ⟨[⟨TId.str g, "Buy milk"⟩]⟩ := by
  constructor
  · rfl
  · show TodoState.mk _ = _
    simp [initialState, addTodo, List.filter_cons]

/-- C8: removeTodo is idempotent: removing the same id twice yields the
same todos list as removing it once. -/
theorem removeTodo_idem (s : TodoState) (i : TId) :
    removeTodo (removeTodo s i) i = removeTodo s i := by
  show TodoState.mk _ = _
  simp [removeTodo, List.filter_filter]

/-- C9: when the freshly generated id does not occur in the state, addTodo
followed by removeTodo of that id restores the original todos list. -/
theorem add_then_remove_roundtrip (s : TodoState) (i : TId) (txt : String)
    (hfresh : i ∉ ids s) :
    removeTodo (addTodo s i txt) i = s := by
  show TodoState.mk _ = s
  rw [show (addTodo s i txt).todos = s.todos ++ [⟨i, txt⟩] from rfl,
    List.filter_append, filter_ne_of_not_mem s.todos i hfresh]
  simp

/-- Witness for C9 at the seeded state with a concrete fresh string id. -/
theorem add_then_remove_roundtrip_witness :
    TId.str "V1StGXR8" ∉ ids initialState ∧
    removeTodo (addTodo initialState (TId.str "V1StGXR8") "Buy milk")
        (TId.str "V1StGXR8")
      = initialState :=
  ⟨by decide,
    add_then_remove_roundtrip initialState (TId.str "V1StGXR8") "Buy milk" (by decide)⟩

/-- C10: removeTodo deletes every record whose id strictly equals the
payload, not only the first match, and ids of different kinds never match:
the string payload 1 does not remove the seeded numeric id 1. -/
theorem removeTodo_all_matches (s : TodoState) (i : TId) :
    (∀ t ∈ (removeTodo s i).todos, t.id ≠ i) ∧
    removeTodo ⟨[⟨TId.num 2, "a"⟩, ⟨TId.num 2, "b"⟩, ⟨TId.num 3, "c"⟩]⟩
        (TId.num 2)
      = ⟨[⟨TId.num 3, "c"⟩]⟩ ∧
    removeTodo initialState (TId.str "1") = initialState := by
  refine ⟨?_, by decide, by decide⟩
  intro t ht
  have := List.mem_filter.mp ht
  simpa using this.2

end TodoApp
